import Mathlib

/-!
Shallow embedding of the core of `src/main.rs`: an in-process REST service
keeping two in-memory collections ("journals" and "tasks") with ETag-based
optimistic concurrency, a single-use token ledger, pagination of listings
and a task-merge operation.

Modelling conventions (each definition's doc comment points at the source
lines it embeds):

* Rust's `HashMap<usize, T>` is modelled as `HMap T`, an association list
  holding one binding per key.  `HashMap::insert` replaces the binding of
  an existing key; the model keeps the new binding at the head and drops
  any old binding for that key, which realises the same key/value mapping.
  Rust's `HashMap` iteration order is unspecified, so the one function
  that iterates over keys (`get_resources`, from `resources.keys()`)
  takes the key enumeration as an explicit argument; theorems constrain
  that argument to be an enumeration of the map's key set.
* `sha256::digest` (`calculate_hash`, main.rs line 291) is modelled as an
  arbitrary function `hash : String → String` passed explicitly; no claim
  depends on the digest beyond it being a fixed function of its input.
* `serde_json::to_string` on `Journal`/`Task` values (whose `etag` field
  carries `#[serde(skip_serializing)]`) serializes the payload fields
  only, in declaration order; it cannot fail for these two types, so the
  `Err` arm of `add_resource` (line 147) is dead code and the model's
  serializer is total.  `serde_json::Value` keeps object keys sorted
  (`BTreeMap`), which the model reflects by serializing parsed objects in
  their (already sorted) field order.
* `SystemTime` is modelled as `Int` (seconds on a time line); `Duration`
  subtraction and the comparisons carry over literally.
* A Rust panic reachable from these functions (`unwrap` on an `Err`,
  integer division by zero, debug-mode integer underflow) is modelled by
  returning `none`.
-/

namespace RestJournal

/-- A journal entry (main.rs lines 17-23).  `title` and `data` are the
payload; `etag` is the stored version stamp, skipped by serialization. -/
structure Journal where
  title : String
  data : String
  etag : String
deriving Repr, DecidableEq

/-- A task entry (main.rs lines 26-32).  `text` and `done` are the
payload; `etag` is the stored version stamp, skipped by serialization. -/
structure Task where
  text : String
  done : Bool
  etag : String
deriving Repr, DecidableEq

/-- The `Etagged` trait (main.rs lines 34-55). -/
class Etagged (T : Type) where
  get_etag : T → String
  set_etag : T → String → T

instance : Etagged Journal where
  get_etag j := j.etag
  set_etag j e := { j with etag := e }

instance : Etagged Task where
  get_etag t := t.etag
  set_etag t e := { t with etag := e }

/-- JSON string escaping as performed by `serde_json`: `"` and `\` and the
short control escapes get a backslash form, remaining control characters
get a `\u` form, everything else is copied verbatim. -/
def hexDigit (n : Nat) : Char :=
  if n < 10 then Char.ofNat (48 + n) else Char.ofNat (87 + n)

/-- Four-hex-digit rendering used by the `\u` escape. -/
def hex4 (n : Nat) : String :=
  String.mk [hexDigit (n / 4096 % 16), hexDigit (n / 256 % 16),
             hexDigit (n / 16 % 16), hexDigit (n % 16)]

/-- Escape one character the way `serde_json` does inside string literals. -/
def jsonEscapeChar (c : Char) : String :=
  if c = '"' then "\\\""
  else if c = '\\' then "\\\\"
  else if c = '\n' then "\\n"
  else if c = '\r' then "\\r"
  else if c = '\t' then "\\t"
  else if c.toNat = 8 then "\\b"
  else if c.toNat = 12 then "\\f"
  else if c.toNat < 32 then "\\u" ++ hex4 c.toNat
  else String.singleton c

/-- Escape a whole string the way `serde_json` does. -/
def jsonEscape (s : String) : String :=
  String.join (s.toList.map jsonEscapeChar)

/-- A JSON string literal: quotes around the escaped content. -/
def jsonQuote (s : String) : String :=
  "\"" ++ jsonEscape s ++ "\""

/-- Canonical serde serialization of a `Task` payload: the derived
`Serialize` writes `text` then `done` and skips `etag`
(main.rs lines 26-32). -/
def serTask (t : Task) : String :=
  "\x7b\"text\":" ++ jsonQuote t.text ++ ",\"done\":"
    ++ (if t.done then "true" else "false") ++ "\x7d"

/-- Canonical serde serialization of a `Journal` payload: the derived
`Serialize` writes `title` then `data` and skips `etag`
(main.rs lines 17-23). -/
def serJournal (j : Journal) : String :=
  "\x7b\"title\":" ++ jsonQuote j.title ++ ",\"data\":"
    ++ jsonQuote j.data ++ "\x7d"

/-- The `serde::Serialize` capability as used by the store: render a value
to its canonical JSON string.  Total, because serialization of `Journal`
and `Task` cannot fail. -/
class Serialize (T : Type) where
  to_string : T → String

instance : Serialize Journal where
  to_string := serJournal

instance : Serialize Task where
  to_string := serTask

/-- The two concrete `Etagged`/`Serialize` impls read back the etag they
set and serialize independently of the stored etag (because `etag` is
`skip_serializing`).  These are the only facts about the trait impls the
generic store functions rely on. -/
class LawfulEtagged (T : Type) [Etagged T] [Serialize T] : Prop where
  get_set : ∀ (t : T) (e : String), Etagged.get_etag (Etagged.set_etag t e) = e
  ser_set : ∀ (t : T) (e : String),
    Serialize.to_string (Etagged.set_etag t e) = Serialize.to_string t

instance : LawfulEtagged Journal where
  get_set _ _ := rfl
  ser_set _ _ := rfl

instance : LawfulEtagged Task where
  get_set _ _ := rfl
  ser_set _ _ := rfl

/-- Model of `HashMap<usize, T>`: an association list with at most one
binding per key (all operations below preserve that).  The list order is
an internal representation detail: Rust's `HashMap` iteration order is
unspecified, and whenever the source iterates over the map the model
takes the enumeration as an explicit input. -/
structure HMap (T : Type) where
  entries : List (Nat × T)
deriving Repr, DecidableEq

variable {T : Type}

/-- `HashMap::get`: the value bound to `id`, if any. -/
def HMap.find? (m : HMap T) (id : Nat) : Option T :=
  (m.entries.find? (fun p => p.1 == id)).map (fun p => p.2)

/-- Whether `id` has a binding. -/
def HMap.contains (m : HMap T) (id : Nat) : Bool :=
  (m.find? id).isSome

/-- `HashMap::insert`: bind `id` to `v`, replacing any previous binding. -/
def HMap.insert (m : HMap T) (id : Nat) (v : T) : HMap T :=
  ⟨(id, v) :: m.entries.filter (fun p => p.1 != id)⟩

/-- `HashMap::remove`: drop the binding of `id`, if any. -/
def HMap.erase (m : HMap T) (id : Nat) : HMap T :=
  ⟨m.entries.filter (fun p => p.1 != id)⟩

/-- `HashMap::len`: the number of bindings. -/
def HMap.size (m : HMap T) : Nat :=
  m.entries.length

/-- The key set of the map, in internal order. -/
def HMap.keysList (m : HMap T) : List Nat :=
  m.entries.map Prod.fst

/-- One entry of the token ledger (main.rs lines 57-61): issuance
timestamp and the random value. -/
structure Token where
  timestamp : Int
  value : String
deriving Repr, DecidableEq

/-- `VALID_TIME_TOKEN` (main.rs line 86): three minutes, in seconds. -/
def VALID_TIME_TOKEN : Int := 60 * 3

/-- `State::gen_token` (main.rs lines 89-111).  The wall-clock reading
`now` and the freshly sampled random string `str_value` are inputs of the
model (the source obtains them from `SystemTime::now()` and `thread_rng`).
First sweeps every entry strictly older than the validity window
(`retain`), then appends the new token; returns its value and the new
ledger. -/
def gen_token (tokens : List Token) (now : Int) (str_value : String) :
    String × List Token :=
  let swept := tokens.filter (fun item => decide (now - VALID_TIME_TOKEN ≤ item.timestamp))
  (str_value, swept ++ [⟨now, str_value⟩])

/-- `State::consume_token` (main.rs lines 113-125).  Finds the first
ledger entry with the given value; if none, returns `false` with the
ledger unchanged.  Otherwise removes that entry unconditionally and
returns `false` exactly when `rmv.timestamp < now - VALID_TIME_TOKEN`,
i.e. `true` when `now - rmv.timestamp ≤ VALID_TIME_TOKEN`. -/
def consume_token : List Token → String → Int → Bool × List Token
  | [], _, _ => (false, [])
  | t :: rest, token, now =>
    if t.value == token then
      if t.timestamp < now - VALID_TIME_TOKEN then (false, rest) else (true, rest)
    else
      let r := consume_token rest token now
      (r.1, t :: r.2)

/-- `calculate_hash` (main.rs lines 291-294): the SHA-256 digest of the
serialized JSON, modelled as an explicit function parameter. -/
def calculate_hash (hash : String → String) (json_string : String) : String :=
  hash json_string

/-- The parts of an HTTP response the core determines: status code, the
`ETag` and `Location` headers when set, and the body (for `.json(..)`
responses the body is the serialized value; for list responses the
structured `PaginationResponse` is returned separately). -/
structure HttpResp where
  status : Nat
  etag : Option String
  location : Option String
  body : String
deriving Repr, DecidableEq

/-- `State::rm_resource` (main.rs lines 127-136): remove the resource at
`id` if present, else report `Not found`. -/
def rm_resource (m : HMap T) (id : Nat) : Except String (HMap T) :=
  if (m.find? id).isSome then .ok (m.erase id) else .error "Not found"

/-- `State::add_resource` (main.rs lines 138-154): the new id is the
current number of entries; the etag is the digest of the canonical
serialization of the incoming resource (payload only, since `etag` is
`skip_serializing`); the stamped resource is inserted at that id with no
check whether the id is already bound.  Always returns `Ok` with the
location, because serialization of these types cannot fail (the `Err`
arm at line 147 is dead code). -/
def add_resource [Etagged T] [Serialize T] (hash : String → String)
    (m : HMap T) (resource : T) (uri : String) :
    Except String (String × HMap T) :=
  let index := m.size
  let uri2 := uri ++ "/" ++ toString index
  let serialized_json := Serialize.to_string resource
  let etag := calculate_hash hash serialized_json
  let resource2 := Etagged.set_etag resource etag
  .ok (uri2, m.insert index resource2)

/-- `get_by_id` (main.rs lines 178-195): `200` with the stored etag as
`ETag` header and the serialized resource as body, or `404 Not found`. -/
def get_by_id [Etagged T] [Serialize T] (m : HMap T) (id : Nat) : HttpResp :=
  match m.find? id with
  | some resource =>
    ⟨200, some (Etagged.get_etag resource), none, Serialize.to_string resource⟩
  | none => ⟨404, none, none, "Not found"⟩

/-- `delete_resource` (main.rs lines 280-289): `200 Removed` or
`404 Not found`. -/
def delete_resource (m : HMap T) (id : Nat) : HttpResp × HMap T :=
  match rm_resource m id with
  | .ok m2 => (⟨200, none, none, "Removed"⟩, m2)
  | .error msg => (⟨404, none, none, msg⟩, m)

/-- `check_etag` (main.rs lines 296-311).  `ifMatch` is the decoded
`If-Match` header (the `to_str` failure arm for non-ASCII header bytes is
outside the model).  Returns the error response when the header is
missing (`428`) or does not equal the stored etag (`412`); `none` means
the check passed. -/
def check_etag [Etagged T] (resource : T) (ifMatch : Option String) :
    Option HttpResp :=
  match ifMatch with
  | none => some ⟨428, none, none, "ETag is missing!"⟩
  | some etag =>
    if Etagged.get_etag resource ≠ etag then
      some ⟨412, none, none, "ETag does not match!"⟩
    else
      none

/-- `serde_json::Value`, as far as the source touches it: the PATCH body
is parsed into a `Value` (main.rs line 332), queried with `get`/`as_bool`/
`as_str`, and re-serialized with `serde_json::to_string` (line 353).
Parsing stores object fields in a `BTreeMap`, so a parsed object carries
its keys in sorted order with no duplicates; the serializer below writes
fields in the order carried by the value. -/
inductive Json where
  | null
  | bool (b : Bool)
  | num (n : Int)
  | str (s : String)
  | arr (xs : List Json)
  | obj (fields : List (String × Json))

/-- `Value::get` on a field name: the field of an object, else `None`. -/
def Json.get : Json → String → Option Json
  | .obj fs, k => (fs.find? (fun kv => kv.1 == k)).map (fun kv => kv.2)
  | _, _ => none

/-- `Value::as_bool`. -/
def Json.as_bool : Json → Option Bool
  | .bool b => some b
  | _ => none

/-- `Value::as_str`. -/
def Json.as_str : Json → Option String
  | .str s => some s
  | _ => none

mutual
/-- `serde_json::to_string` on a `Value`. -/
def serJson : Json → String
  | .null => "null"
  | .bool b => if b then "true" else "false"
  | .num n => toString n
  | .str s => jsonQuote s
  | .arr xs => "[" ++ serJsonList xs ++ "]"
  | .obj fs => "\x7b" ++ serJsonFields fs ++ "\x7d"

/-- Comma-separated serialization of array elements. -/
def serJsonList : List Json → String
  | [] => ""
  | [x] => serJson x
  | x :: y :: rest => serJson x ++ "," ++ serJsonList (y :: rest)

/-- Comma-separated serialization of object fields. -/
def serJsonFields : List (String × Json) → String
  | [] => ""
  | [(k, v)] => jsonQuote k ++ ":" ++ serJson v
  | (k, v) :: f :: rest =>
    jsonQuote k ++ ":" ++ serJson v ++ "," ++ serJsonFields (f :: rest)
end

/-- `put_resource` (main.rs lines 367-398).  If a resource exists at `id`
the `If-Match` precondition is checked against its stored etag and a
failure leaves the store unchanged; otherwise (or on success) the
incoming payload is serialized, stamped with the digest of that
serialization, and inserted at `id` — note that an absent `id` bypasses
the etag check and inserts blindly. -/
def put_resource [Etagged T] [Serialize T] (hash : String → String)
    (m : HMap T) (id : Nat) (json : T) (ifMatch : Option String) :
    HttpResp × HMap T :=
  let etagFailure :=
    match m.find? id with
    | some resource => check_etag resource ifMatch
    | none => none
  match etagFailure with
  | some response => (response, m)
  | none =>
    let serialized_json := Serialize.to_string json
    let new_etag := calculate_hash hash serialized_json
    let new_resource := Etagged.set_etag json new_etag
    (⟨200, some new_etag, none, "Updated"⟩, m.insert id new_resource)

/-- `patch_task` (main.rs lines 313-365).  `json` is the parsed PATCH
body (the `Broken json` arm for an unparsable body is outside the model,
which starts from the parsed value).  Missing id → `400 No such
resource`; then the etag precondition; then the recognized fields
(`done` first, then `text`) are merged into the task; if none was
recognized → `400 Nothing to update`; otherwise the new etag is the
digest of the serialization of the PATCH BODY `json` (line 353), not of
the updated task. -/
def patch_task (hash : String → String) (tasks : HMap Task) (id : Nat)
    (json : Json) (ifMatch : Option String) : HttpResp × HMap Task :=
  match tasks.find? id with
  | none => (⟨400, none, none, "No such resource"⟩, tasks)
  | some task =>
    match check_etag task ifMatch with
    | some response => (response, tasks)
    | none =>
      let step1 : Task × Bool :=
        match (json.get "done").bind Json.as_bool with
        | some done => ({ task with done := done }, true)
        | none => (task, false)
      let step2 : Task × Bool :=
        match (json.get "text").bind Json.as_str with
        | some text => ({ step1.1 with text := text }, true)
        | none => step1
      if step2.2 then
        let serialized_json := serJson json
        let new_etag := calculate_hash hash serialized_json
        let task2 := Etagged.set_etag step2.1 new_etag
        (⟨200, some new_etag, none, "Updated"⟩, tasks.insert id task2)
      else
        (⟨400, none, none, "Nothing to update"⟩, tasks)

/-- The new task built by `merge_tasks` (main.rs lines 230-246): for each
supplied id that is present, the fold appends `'\n'` and then the task's
text (so every found text is PRECEDED by a newline), and ANDs the `done`
flags starting from `true`. -/
def merge_new_task (tasks : HMap Task) (ids : List Nat) : Task :=
  let found := ids.filterMap (fun id => tasks.find? id)
  let folded := found.foldl
    (fun acc item => (acc.1 ++ "\n" ++ item.text, acc.2 && item.done))
    ("", true)
  ⟨folded.1, folded.2, ""⟩

/-- The deletion loop of `merge_tasks` (main.rs lines 255-257):
`state.rm_resource::<Task>(&id).unwrap()` for each originally supplied
id, in order.  The `unwrap` panics when a removal reports `Not found`
(absent or already-deleted id); the panic is modelled as `none`. -/
def rm_all (m : HMap Task) : List Nat → Option (HMap Task)
  | [] => some m
  | id :: rest =>
    match rm_resource m id with
    | .ok m2 => rm_all m2 rest
    | .error _ => none

/-- `merge_tasks` (main.rs lines 222-261), after the token gate: build
the merged task, create it via `add_resource` (on creation failure
return `500` — dead code, see `add_resource`), then unwrap-delete every
supplied id.  `none` is the deletion-loop panic. -/
def merge_tasks (hash : String → String) (tasks : HMap Task)
    (ids : List Nat) (uri : String) : Option (HttpResp × HMap Task) :=
  let new_task := merge_new_task tasks ids
  match add_resource hash tasks new_task uri with
  | .error msg => some (⟨500, none, none, msg⟩, tasks)
  | .ok (location, tasks2) =>
    match rm_all tasks2 ids with
    | some tasks3 => some (⟨201, none, some location, "OK"⟩, tasks3)
    | none => none

/-- The listing response (main.rs lines 163-169). -/
structure PaginationResponse (T : Type) where
  page : Nat
  total_entries : Nat
  total_pages : Nat
  entries : List T
deriving Repr, DecidableEq

/-- `get_resources` (main.rs lines 400-430).  `keysEnum` is the key
sequence produced by `resources.keys()` — Rust's `HashMap` iteration
order is unspecified, so the model takes it as an input; theorems
constrain it to enumerate the map's keys.  Defaults: page 1, 5 per page.
Panics modelled as `none`: `per_page = 0` makes the `total_pages`
division divide by zero, and `page = 0` makes `(page - 1) * per_page`
underflow (a panic in a debug build, a wrap-around in release).  The
window skips `(page-1)*per_page` keys of the enumeration, takes up to
`per_page`, and looks each surviving key up with `.unwrap()`. -/
def get_resources (m : HMap T) (keysEnum : List Nat)
    (pageParam per_pageParam : Option Nat) :
    Option (PaginationResponse T) :=
  let page_num := pageParam.getD 1
  let per_page := per_pageParam.getD 5
  let total_entries := m.size
  if per_page = 0 then none
  else if page_num = 0 then none
  else
    let total_pages := (total_entries + per_page - 1) / per_page
    let start_index := (page_num - 1) * per_page
    let item_slice := ((keysEnum.drop start_index).take per_page).mapM m.find?
    item_slice.map (fun entries => ⟨page_num, total_entries, total_pages, entries⟩)

/-- Modelled from the spec: `total_pages = ceil(total_entries /
per_page)` (spec section 4.4), the mathematical ceiling of the division,
written for comparison with the code's `(total_entries + per_page - 1) /
per_page`. -/
def ceil_div (a b : Nat) : Nat :=
  a / b + (if a % b = 0 then 0 else 1)

/-! ### Helper lemmas about the association-list map -/

/-- Looking up the key just inserted yields the inserted value. -/
theorem HMap.find?_insert_self (m : HMap T) (id : Nat) (v : T) :
    (m.insert id v).find? id = some v := by
  simp [HMap.find?, HMap.insert, List.find?]

/-- Filtering out bindings of key `id` does not change the first binding
found for a different key `k`. -/
theorem find?_filter_key_ne (l : List (Nat × T)) (id k : Nat) (h : k ≠ id) :
    (l.filter (fun p => p.1 != id)).find? (fun p => p.1 == k)
      = l.find? (fun p => p.1 == k) := by
  induction l with
  | nil => rfl
  | cons p rest ih =>
    obtain ⟨a, b⟩ := p
    by_cases hp : a = id
    · rw [List.filter_cons, if_neg (by simp [hp]), ih,
          List.find?_cons_of_neg _ (by simp [hp]; exact fun he => h he.symm)]
    · by_cases hpk : a = k
      · rw [List.filter_cons, if_pos (by simp [hp]),
            List.find?_cons_of_pos _ (by simp [hpk]),
            List.find?_cons_of_pos _ (by simp [hpk])]
      · rw [List.filter_cons, if_pos (by simp [hp]),
            List.find?_cons_of_neg _ (by simp [hpk]), ih,
            List.find?_cons_of_neg _ (by simp [hpk])]

/-- Inserting at `id` leaves lookups of other keys unchanged. -/
theorem HMap.find?_insert_ne (m : HMap T) (id k : Nat) (v : T) (h : k ≠ id) :
    (m.insert id v).find? k = m.find? k := by
  have hk : ((id, v).1 == k) = false := by
    simp; exact fun he => h he.symm
  simp only [HMap.find?, HMap.insert, List.find?_cons, hk]
  rw [find?_filter_key_ne m.entries id k h]

/-- Erasing `id` removes its binding. -/
theorem HMap.find?_erase_self (m : HMap T) (id : Nat) :
    (m.erase id).find? id = none := by
  simp only [HMap.find?, HMap.erase, Option.map_eq_none']
  rw [List.find?_eq_none]
  intro p hp
  have := List.of_mem_filter hp
  simpa using this

/-- A lookup succeeds exactly when the key occurs in the key list. -/
theorem HMap.find?_isSome_iff_mem_keys (m : HMap T) (k : Nat) :
    (m.find? k).isSome ↔ k ∈ m.keysList := by
  simp only [HMap.find?, HMap.keysList, Option.isSome_map']
  rw [List.find?_isSome]
  constructor
  · rintro ⟨p, hp, hpk⟩
    exact List.mem_map.mpr ⟨p, hp, by simpa using hpk⟩
  · intro hk
    obtain ⟨p, hp, hpk⟩ := List.mem_map.mp hk
    exact ⟨p, hp, by simp [hpk]⟩

/-! ### Helper lemmas about `mapM` over `Option` -/

/-- When every lookup succeeds, `mapM` returns the `filterMap`. -/
theorem option_mapM_eq_filterMap {α β : Type} (f : α → Option β) (l : List α)
    (h : ∀ a ∈ l, (f a).isSome) :
    l.mapM f = some (l.filterMap f) := by
  induction l with
  | nil => rfl
  | cons a rest ih =>
    obtain ⟨b, hb⟩ := Option.isSome_iff_exists.mp (h a (by simp))
    rw [List.mapM_cons, hb, ih (fun x hx => h x (by simp [hx]))]
    simp [List.filterMap_cons, hb]

/-- When every lookup succeeds, `filterMap` keeps the length. -/
theorem filterMap_length_of_isSome {α β : Type} (f : α → Option β) (l : List α)
    (h : ∀ a ∈ l, (f a).isSome) :
    (l.filterMap f).length = l.length := by
  induction l with
  | nil => rfl
  | cons a rest ih =>
    obtain ⟨b, hb⟩ := Option.isSome_iff_exists.mp (h a (by simp))
    simp [List.filterMap_cons, hb, ih (fun x hx => h x (by simp [hx]))]

/-! ### Helper lemmas about the ceiling division -/

/-- The code's `(N + pp - 1) / pp` equals the mathematical ceiling of
`N / pp` once `pp ≥ 1`. -/
theorem add_pred_div_eq_ceil_div (N pp : Nat) (h : 1 ≤ pp) :
    (N + pp - 1) / pp = ceil_div N pp := by
  have hpos : 0 < pp := h
  have hdm := Nat.div_add_mod N pp
  have hlt : N % pp < pp := Nat.mod_lt _ hpos
  unfold ceil_div
  by_cases h0 : N % pp = 0
  · rw [if_pos h0, Nat.add_zero]
    have harg : N + pp - 1 = pp * (N / pp) + (pp - 1) := by omega
    rw [harg, Nat.mul_add_div hpos,
        Nat.div_eq_of_lt (show pp - 1 < pp by omega), Nat.add_zero]
  · rw [if_neg h0]
    have hmul : pp * (N / pp + 1) = pp * (N / pp) + pp := by ring
    have harg : N + pp - 1 = pp * (N / pp + 1) + (N % pp - 1) := by omega
    rw [harg, Nat.mul_add_div hpos,
        Nat.div_eq_of_lt (show N % pp - 1 < pp by omega), Nat.add_zero]

/-- The ceiling times the divisor dominates the dividend. -/
theorem le_mul_ceil_div (N pp : Nat) (h : 1 ≤ pp) : N ≤ pp * ceil_div N pp := by
  have hpos : 0 < pp := h
  have hdm := Nat.div_add_mod N pp
  have hlt : N % pp < pp := Nat.mod_lt _ hpos
  have hmul : pp * (N / pp + 1) = pp * (N / pp) + pp := by ring
  unfold ceil_div
  by_cases h0 : N % pp = 0
  · rw [if_pos h0, Nat.add_zero]
    omega
  · rw [if_neg h0]
    omega

/-! ### Helper lemmas about the merge fold -/

/-- Closed form of the fold in `merge_tasks` (main.rs lines 232-239): the
accumulated text is the start value followed by one `"\n" ++ text` block
per found task, and the flag is the start value ANDed with all `done`
flags. -/
theorem merge_fold_eq (found : List Task) (s : String) (b : Bool) :
    found.foldl
        (fun acc item => (acc.1 ++ "\n" ++ item.text, acc.2 && item.done))
        (s, b)
      = (s ++ (found.map (fun t => "\n" ++ t.text)).foldr (· ++ ·) "",
         b && found.all (fun t => t.done)) := by
  induction found generalizing s b with
  | nil => simp
  | cons t rest ih =>
    simp only [List.foldl_cons, ih, List.map_cons, List.foldr_cons, List.all_cons,
      Prod.mk.injEq]
    constructor
    · simp [String.append_assoc]
    · simp [Bool.and_assoc]

/-! ### Helper lemmas about the token ledger -/

/-- Consuming a value not present in the ledger returns `false` and
leaves the ledger unchanged. -/
theorem consume_token_not_found (tokens : List Token) (token : String) (now : Int)
    (h : ∀ t ∈ tokens, t.value ≠ token) :
    consume_token tokens token now = (false, tokens) := by
  induction tokens with
  | nil => rfl
  | cons t rest ih =>
    have ht : (t.value == token) = false := by
      simpa using h t (by simp)
    simp only [consume_token, ht, Bool.false_eq_true, if_false]
    rw [ih (fun x hx => h x (by simp [hx]))]

/-- Consuming a present value removes its first occurrence, whatever the
outcome, and returns `true` exactly when `now - issued ≤ window`. -/
theorem consume_token_found (pre post : List Token) (t : Token) (token : String)
    (now : Int) (ht : t.value = token) (hpre : ∀ u ∈ pre, u.value ≠ token) :
    consume_token (pre ++ t :: post) token now
      = (decide (now - t.timestamp ≤ VALID_TIME_TOKEN), pre ++ post) := by
  induction pre with
  | nil =>
    have htb : (t.value == token) = true := by simpa using ht
    simp only [List.nil_append, consume_token, htb, if_true]
    by_cases hexp : t.timestamp < now - VALID_TIME_TOKEN
    · rw [if_pos hexp]
      have : ¬(now - t.timestamp ≤ VALID_TIME_TOKEN) := by omega
      simp [this]
    · rw [if_neg hexp]
      have : now - t.timestamp ≤ VALID_TIME_TOKEN := by omega
      simp [this]
  | cons u rest ih =>
    have hu : (u.value == token) = false := by
      simpa using hpre u (by simp)
    have ih2 : consume_token (List.append rest (t :: post)) token now
        = (decide (now - t.timestamp ≤ VALID_TIME_TOKEN), rest ++ post) :=
      ih (fun x hx => hpre x (by simp [hx]))
    simp only [List.cons_append, consume_token, hu, Bool.false_eq_true, if_false, ih2]

/-- If the ledger holds at most one entry with the given value, the
ledger left behind by a consume holds none. -/
theorem consume_token_removes (tokens : List Token) (token : String) (now : Int)
    (h : (tokens.filter (fun t => t.value == token)).length ≤ 1) :
    ∀ u ∈ (consume_token tokens token now).2, u.value ≠ token := by
  induction tokens with
  | nil => simp [consume_token]
  | cons t rest ih =>
    by_cases ht : t.value = token
    · have htb : (t.value == token) = true := by simpa using ht
      have hrest : ∀ u ∈ rest, u.value ≠ token := by
        have : (rest.filter (fun t => t.value == token)).length = 0 := by
          simp only [List.filter_cons, htb] at h
          simpa using h
        intro u hu
        have := List.filter_eq_nil_iff.mp (List.length_eq_zero.mp this) u hu
        simpa using this
      simp only [consume_token, htb, if_true]
      by_cases hexp : t.timestamp < now - VALID_TIME_TOKEN
      · simpa [hexp] using hrest
      · simpa [hexp] using hrest
    · have htb : (t.value == token) = false := by simpa using ht
      have h2 : (rest.filter (fun t => t.value == token)).length ≤ 1 := by
        simpa [List.filter_cons, htb] using h
      simp only [consume_token, htb, Bool.false_eq_true, if_false]
      intro u hu
      rcases List.mem_cons.mp hu with hu | hu
      · rw [hu]; exact ht
      · exact ih h2 u hu

/-- After a sweep performed by `gen_token`, no entry carries a value all
of whose ledger occurrences had expired, unless it is the fresh value. -/
theorem gen_token_sweeps (tokens : List Token) (now : Int) (v token : String)
    (hexp : ∀ t ∈ tokens, t.value = token → t.timestamp < now - VALID_TIME_TOKEN)
    (hv : v ≠ token) :
    ∀ u ∈ (gen_token tokens now v).2, u.value ≠ token := by
  intro u hu
  simp only [gen_token, List.mem_append, List.mem_filter, List.mem_singleton] at hu
  rcases hu with ⟨hmem, hkeep⟩ | hu
  · intro hval
    have := hexp u hmem hval
    simp only [decide_eq_true_eq] at hkeep
    omega
  · rw [hu]; exact hv

/-- Characterization of `get_resources` when the parameters are nonzero
and every enumerated key is present: the response is determined, and the
entries are the resources of the enumeration's window `skip
(page-1)*per_page, take per_page`, in enumeration order. -/
theorem get_resources_eq (m : HMap T) (ids : List Nat) (page pp : Nat)
    (hpage : 1 ≤ page) (hpp : 1 ≤ pp)
    (hmem : ∀ i ∈ ids, (m.find? i).isSome) :
    get_resources m ids (some page) (some pp)
      = some ⟨page, m.size, (m.size + pp - 1) / pp,
              ((ids.drop ((page - 1) * pp)).take pp).filterMap m.find?⟩ := by
  have hwin : ∀ a ∈ (ids.drop ((page - 1) * pp)).take pp, (m.find? a).isSome :=
    fun a ha => hmem a (List.mem_of_mem_drop (List.mem_of_mem_take ha))
  simp only [get_resources, Option.getD_some]
  rw [if_neg (by omega), if_neg (by omega),
      option_mapM_eq_filterMap _ _ hwin]
  rfl

/-- Dropping the elements on which `f` fails does not change a
`filterMap`. -/
theorem filterMap_eq_filterMap_filter {α β : Type} (f : α → Option β)
    (l : List α) :
    l.filterMap f = (l.filter (fun a => (f a).isSome)).filterMap f := by
  induction l with
  | nil => rfl
  | cons a rest ih =>
    by_cases ha : (f a).isSome = true
    · obtain ⟨b, hb⟩ := Option.isSome_iff_exists.mp ha
      simp [List.filter_cons, ha, List.filterMap_cons, hb, ← ih]
    · have hb : f a = none := Option.not_isSome_iff_eq_none.mp ha
      simp [List.filter_cons, ha, List.filterMap_cons, hb, ← ih]

/-! ### The claims -/

/-- C1: the claim states that after every successful mutation the stored
etag is the digest of the canonical serialization of the PAYLOAD.  That
holds for create (first conjunct: `add_resource` stamps
`hash(serTask payload)`), but `patch_task` stamps the digest of the
serialization of the PATCH REQUEST BODY (main.rs line 353 serializes
`json`, not the updated task): after patching `{text:"a", done:false}`
with body `{"done":true}`, the stored etag is `hash("{\"done\":true}")`
while the canonical serialization of the updated payload is
`{"text":"a","done":true}` — a different string, hence (for any
injective digest, here witnessed by the identity) a different etag. -/
theorem c1_patch_hashes_patch_body :
    add_resource (fun s => s) (⟨[]⟩ : HMap Task) ⟨"a", false, ""⟩ "/tasks"
      = .ok ("/tasks/0", ⟨[(0, ⟨"a", false, serTask ⟨"a", false, ""⟩⟩)]⟩)
    ∧ patch_task (fun s => s) ⟨[(0, ⟨"a", false, serTask ⟨"a", false, ""⟩⟩)]⟩ 0
        (Json.obj [("done", Json.bool true)]) (some (serTask ⟨"a", false, ""⟩))
      = (⟨200, some (serJson (Json.obj [("done", Json.bool true)])), none, "Updated"⟩,
         ⟨[(0, ⟨"a", true, serJson (Json.obj [("done", Json.bool true)])⟩)]⟩)
    ∧ serJson (Json.obj [("done", Json.bool true)]) ≠ serTask ⟨"a", true, ""⟩ :=
  ⟨rfl, rfl, by decide⟩

/-- C2 (amended): consuming an absent value returns `false` and leaves
the ledger unchanged; consuming a present value removes its first
occurrence whatever the outcome and returns `true` exactly when
`now - issued_at ≤ VALID_TIME_TOKEN` (the code's comparison at main.rs
line 117 admits equality, unlike the claim's strict `<`); provided the
value occurs at most once in the ledger (as issuance's random values
make it), an immediately following consume of the same value returns
`false`; and a value all of whose occurrences have expired can never
validate again after a sweep, so a swept value never validates. -/
theorem c2_token_single_use :
    (∀ (tokens : List Token) (token : String) (now : Int),
        (∀ t ∈ tokens, t.value ≠ token) →
        consume_token tokens token now = (false, tokens))
    ∧ (∀ (pre post : List Token) (t : Token) (token : String) (now : Int),
        t.value = token → (∀ u ∈ pre, u.value ≠ token) →
        consume_token (pre ++ t :: post) token now
          = (decide (now - t.timestamp ≤ VALID_TIME_TOKEN), pre ++ post))
    ∧ (∀ (tokens : List Token) (token : String) (now now2 : Int),
        (tokens.filter (fun t => t.value == token)).length ≤ 1 →
        (consume_token (consume_token tokens token now).2 token now2).1 = false)
    ∧ (∀ (tokens : List Token) (now : Int) (v token : String) (now2 : Int),
        (∀ t ∈ tokens, t.value = token → t.timestamp < now - VALID_TIME_TOKEN) →
        v ≠ token →
        (consume_token (gen_token tokens now v).2 token now2).1 = false) := by
  refine ⟨consume_token_not_found, consume_token_found, ?_, ?_⟩
  · intro tokens token now now2 h
    rw [consume_token_not_found _ _ _ (consume_token_removes tokens token now h)]
  · intro tokens now v token now2 hexp hv
    rw [consume_token_not_found _ _ _ (gen_token_sweeps tokens now v token hexp hv)]

/-- Concrete instances of `c2_token_single_use`: a miss on a one-entry
ledger, a hit that removes the entry, a double consume returning `false`
the second time, and a consume after an expiring sweep. -/
theorem c2_token_single_use_witness :
    consume_token [⟨0, "a"⟩] "b" 10 = (false, [⟨0, "a"⟩])
    ∧ consume_token ([⟨0, "a"⟩] ++ (⟨5, "b"⟩ : Token) :: []) "b" 100
        = (decide ((100 : Int) - (5 : Int) ≤ VALID_TIME_TOKEN), [⟨0, "a"⟩] ++ [])
    ∧ (consume_token (consume_token [⟨0, "a"⟩, ⟨5, "b"⟩] "b" 100).2 "b" 101).1 = false
    ∧ (consume_token (gen_token [⟨0, "b"⟩] 300 "c").2 "b" 301).1 = false := by
  refine ⟨?_, ?_, ?_, ?_⟩
  · exact c2_token_single_use.1 [⟨0, "a"⟩] "b" 10 (by decide)
  · exact c2_token_single_use.2.1 [⟨0, "a"⟩] [] ⟨5, "b"⟩ "b" 100 rfl (by decide)
  · exact c2_token_single_use.2.2.1 [⟨0, "a"⟩, ⟨5, "b"⟩] "b" 100 101 (by decide)
  · exact c2_token_single_use.2.2.2 [⟨0, "b"⟩] 300 "c" "b" 301 (by decide) (by decide)

/-- C2 counterexample to the strict-inequality reading: a token issued at
time 0 and consumed exactly at the end of the window (`now = 180`, so
`now - issued_at` is NOT strictly less than the window) is accepted by
the code. -/
theorem c2_counterexample :
    (consume_token [⟨0, "t"⟩] "t" 180).1 = true
    ∧ ¬((180 : Int) - (0 : Int) < VALID_TIME_TOKEN) :=
  ⟨rfl, by decide⟩

/-- C3: for an id that is present, PUT with no presented etag fails with
PreconditionRequired (428) leaving the store unchanged; with a wrong
etag it fails with PreconditionFailed (412) leaving the store unchanged;
with the correct current etag it succeeds, restamping the resource with
the digest of the new payload's canonical serialization; and repeating
the same call with the now-stale etag (i.e. when the restamped etag
differs from the presented one) fails with PreconditionFailed. -/
theorem c3_put_etag_precondition {T : Type} [Etagged T] [Serialize T]
    [LawfulEtagged T] (hash : String → String) (m : HMap T) (id : Nat)
    (stored p : T) (hstored : m.find? id = some stored) :
    put_resource hash m id p none = (⟨428, none, none, "ETag is missing!"⟩, m)
    ∧ (∀ e, e ≠ Etagged.get_etag stored →
        put_resource hash m id p (some e)
          = (⟨412, none, none, "ETag does not match!"⟩, m))
    ∧ put_resource hash m id p (some (Etagged.get_etag stored))
        = (⟨200, some (hash (Serialize.to_string p)), none, "Updated"⟩,
           m.insert id (Etagged.set_etag p (hash (Serialize.to_string p))))
    ∧ (hash (Serialize.to_string p) ≠ Etagged.get_etag stored →
        put_resource hash
            (m.insert id (Etagged.set_etag p (hash (Serialize.to_string p))))
            id p (some (Etagged.get_etag stored))
          = (⟨412, none, none, "ETag does not match!"⟩,
             m.insert id (Etagged.set_etag p (hash (Serialize.to_string p))))) := by
  refine ⟨?_, ?_, ?_, ?_⟩
  · simp [put_resource, hstored, check_etag]
  · intro e he
    simp [put_resource, hstored, check_etag, Ne.symm he]
  · simp [put_resource, hstored, check_etag, calculate_hash]
  · intro hne
    have hfind := HMap.find?_insert_self m id
      (Etagged.set_etag p (hash (Serialize.to_string p)))
    simp [put_resource, hfind, check_etag, LawfulEtagged.get_set, hne,
      calculate_hash]

/-- Concrete instance of `c3_put_etag_precondition` on the task
collection: store `{0 ↦ {text:"a", done:false, etag:"e0"}}`, payload
`{text:"b", done:true}`, digest modelled by the identity function. -/
theorem c3_put_etag_precondition_witness :
    put_resource (fun s => s) (⟨[(0, ⟨"a", false, "e0"⟩)]⟩ : HMap Task) 0
        ⟨"b", true, ""⟩ none
      = (⟨428, none, none, "ETag is missing!"⟩,
         (⟨[(0, ⟨"a", false, "e0"⟩)]⟩ : HMap Task))
    ∧ put_resource (fun s => s) (⟨[(0, ⟨"a", false, "e0"⟩)]⟩ : HMap Task) 0
        ⟨"b", true, ""⟩ (some "bogus")
      = (⟨412, none, none, "ETag does not match!"⟩,
         (⟨[(0, ⟨"a", false, "e0"⟩)]⟩ : HMap Task))
    ∧ put_resource (fun s => s) (⟨[(0, ⟨"a", false, "e0"⟩)]⟩ : HMap Task) 0
        ⟨"b", true, ""⟩ (some "e0")
      = (⟨200, some (serTask ⟨"b", true, ""⟩), none, "Updated"⟩,
         (⟨[(0, ⟨"a", false, "e0"⟩)]⟩ : HMap Task).insert 0
           ⟨"b", true, serTask ⟨"b", true, ""⟩⟩)
    ∧ put_resource (fun s => s)
        ((⟨[(0, ⟨"a", false, "e0"⟩)]⟩ : HMap Task).insert 0
           ⟨"b", true, serTask ⟨"b", true, ""⟩⟩) 0
        ⟨"b", true, ""⟩ (some "e0")
      = (⟨412, none, none, "ETag does not match!"⟩,
         (⟨[(0, ⟨"a", false, "e0"⟩)]⟩ : HMap Task).insert 0
           ⟨"b", true, serTask ⟨"b", true, ""⟩⟩) := by
  have h := c3_put_etag_precondition (fun s => s)
    (⟨[(0, ⟨"a", false, "e0"⟩)]⟩ : HMap Task) 0 ⟨"a", false, "e0"⟩
    ⟨"b", true, ""⟩ rfl
  exact ⟨h.1, h.2.1 "bogus" (by decide), h.2.2.1, h.2.2.2 (by decide)⟩

/-- C4 (amended): the merged task's text is the concatenation of one
block `"\n" ++ text` per task FOUND among the supplied ids, in supplied
order — so there is a LEADING newline separator (merging texts "a" and
"b" yields `"\na\nb"`, not the claim's `"a\nb"`) — and its `done` flag
is the AND over the found tasks' flags (`true` when none is found).  The
second conjunct runs the whole merge on the claim's own example. -/
theorem c4_merge_text_and_done :
    (∀ (tasks : HMap Task) (ids : List Nat),
        merge_new_task tasks ids
          = ⟨((ids.filterMap tasks.find?).map (fun t => "\n" ++ t.text)).foldr
               (· ++ ·) "",
             (ids.filterMap tasks.find?).all (fun t => t.done), ""⟩)
    ∧ merge_tasks (fun s => s)
        (⟨[(0, ⟨"a", false, "e0"⟩), (1, ⟨"b", true, "e1"⟩)]⟩ : HMap Task)
        [0, 1] "/task_merger"
      = some (⟨201, none, some "/task_merger/2", "OK"⟩,
              ⟨[(2, ⟨"\na\nb", false, serTask ⟨"\na\nb", false, ""⟩⟩)]⟩) := by
  constructor
  · intro tasks ids
    simp only [merge_new_task]
    rw [merge_fold_eq]
    simp
  · rfl

/-- C4 counterexample: on the claim's example (task 0 = "a", task 1 =
"b") the created task's text is `"\na\nb"`, not the claimed `"a\nb"`. -/
theorem c4_counterexample :
    ((merge_tasks (fun s => s)
        (⟨[(0, ⟨"a", false, "e0"⟩), (1, ⟨"b", true, "e1"⟩)]⟩ : HMap Task)
        [0, 1] "/task_merger").map
      (fun r => (r.2.find? 2).map (fun t => t.text))) = some (some "\na\nb")
    ∧ "\na\nb" ≠ "a\nb" :=
  ⟨rfl, by decide⟩

/-- C5: three caller-supplied inputs on which the core panics, violating
the claim.  A list request with `per_page = 0` divides by zero in the
`total_pages` computation (main.rs line 412); a list request with
`page = 0` underflows `(page - 1) * per_page` (line 414, a panic in a
debug build); a merge naming an id with no existing task creates the
merged task and then panics on `rm_resource(id).unwrap()` (line 256).
`none` is the modelled panic. -/
theorem c5_user_input_panics :
    get_resources (⟨[(0, ⟨"a", false, "1"⟩)]⟩ : HMap Task) [0] (some 1) (some 0)
      = none
    ∧ get_resources (⟨[(0, ⟨"a", false, "1"⟩)]⟩ : HMap Task) [0] (some 0) (some 5)
      = none
    ∧ merge_tasks (fun s => s) (⟨[]⟩ : HMap Task) [7] "/task_merger" = none :=
  ⟨rfl, rfl, rfl⟩

/-- C6 (amended): the entries returned by list are windowed by ordinal
position in the key ENUMERATION ORDER handed over by the hash map's
`keys()` — the code never sorts it, and Rust's `HashMap` iteration order
is unspecified, so ascending id order is not guaranteed.  For every
enumeration whose keys are all present, the response's entries are
exactly the resources of the enumeration's positions
`(page-1)*per_page .. page*per_page - 1`, in enumeration order. -/
theorem c6_window_by_enumeration_order {T : Type} (m : HMap T)
    (ids : List Nat) (page pp : Nat) (hpage : 1 ≤ page) (hpp : 1 ≤ pp)
    (hmem : ∀ i ∈ ids, (m.find? i).isSome) :
    get_resources m ids (some page) (some pp)
      = some ⟨page, m.size, (m.size + pp - 1) / pp,
              ((ids.drop ((page - 1) * pp)).take pp).filterMap m.find?⟩ :=
  get_resources_eq m ids page pp hpage hpp hmem

/-- Concrete instance of `c6_window_by_enumeration_order`. -/
theorem c6_window_by_enumeration_order_witness :
    get_resources (⟨[(0, ⟨"a", false, "1"⟩)]⟩ : HMap Task) [0] (some 1) (some 5)
      = some ⟨1, 1, 1, [⟨"a", false, "1"⟩]⟩ := by
  have h := c6_window_by_enumeration_order
    (⟨[(0, ⟨"a", false, "1"⟩)]⟩ : HMap Task) [0] 1 5 (by decide) (by decide)
    (by decide)
  exact h

/-- C6 counterexample: with keys enumerated as `[1, 0]` — a legal
enumeration of the key set `\x7b0, 1\x7d`, since `HashMap` iteration
order is unspecified — the listing returns the resources in the order
`[task 1, task 0]`, not in ascending id order. -/
theorem c6_counterexample :
    get_resources (⟨[(0, ⟨"a", false, "1"⟩), (1, ⟨"b", true, "2"⟩)]⟩ : HMap Task)
        [1, 0] (some 1) (some 5)
      = some ⟨1, 2, 1, [⟨"b", true, "2"⟩, ⟨"a", false, "1"⟩]⟩
    ∧ [1, 0].Perm
        ((⟨[(0, ⟨"a", false, "1"⟩), (1, ⟨"b", true, "2"⟩)]⟩ : HMap Task).keysList)
    ∧ ([⟨"b", true, "2"⟩, ⟨"a", false, "1"⟩] : List Task)
        ≠ [⟨"a", false, "1"⟩, ⟨"b", true, "2"⟩] :=
  ⟨rfl, by decide, by decide⟩

/-- C7: for any enumeration of the key set and `page ≥ 1`,
`per_page ≥ 1`, the listing succeeds with `total_entries` the number of
stored entries and `total_pages` the ceiling of `total_entries /
per_page`; at most `per_page` entries are returned; a page beyond the
last yields an empty entries sequence (with the same totals, no error);
an empty store yields zero pages and no entries; and the instance
N = 12, per_page = 5, page = 3 yields exactly 2 entries and 3 pages. -/
theorem c7_pagination_totals {T : Type} (m : HMap T) (ids : List Nat)
    (page pp : Nat) (hpage : 1 ≤ page) (hpp : 1 ≤ pp)
    (hperm : ids.Perm m.keysList) :
    ∃ r, get_resources m ids (some page) (some pp) = some r
      ∧ r.total_entries = m.size
      ∧ r.total_pages = ceil_div m.size pp
      ∧ r.entries.length ≤ pp
      ∧ (ceil_div m.size pp < page → r.entries = [])
      ∧ (m.size = 0 → r.total_pages = 0 ∧ r.entries = [])
      ∧ (m.size = 12 → pp = 5 → page = 3 →
          r.entries.length = 2 ∧ r.total_pages = 3) := by
  have hmem : ∀ i ∈ ids, (m.find? i).isSome := by
    intro i hi
    rw [HMap.find?_isSome_iff_mem_keys]
    exact hperm.mem_iff.mp hi
  have hlen : ids.length = m.size := by
    have h := hperm.length_eq
    simpa [HMap.keysList, HMap.size] using h
  have hwin : ∀ a ∈ (ids.drop ((page - 1) * pp)).take pp, (m.find? a).isSome :=
    fun a ha => hmem a (List.mem_of_mem_drop (List.mem_of_mem_take ha))
  refine ⟨_, get_resources_eq m ids page pp hpage hpp hmem, rfl, ?_, ?_, ?_, ?_, ?_⟩
  · exact add_pred_div_eq_ceil_div m.size pp hpp
  · rw [filterMap_length_of_isSome _ _ hwin, List.length_take]
    exact min_le_left _ _
  · intro hbeyond
    have h1 : m.size ≤ pp * ceil_div m.size pp := le_mul_ceil_div m.size pp hpp
    have h2 : ceil_div m.size pp ≤ page - 1 := by omega
    have h3 : pp * ceil_div m.size pp ≤ pp * (page - 1) :=
      Nat.mul_le_mul_left pp h2
    have h4 : ids.length ≤ (page - 1) * pp := by
      have h5 : pp * (page - 1) = (page - 1) * pp := Nat.mul_comm _ _
      omega
    rw [List.drop_eq_nil_of_le h4]
    simp
  · intro h0
    constructor
    · rw [add_pred_div_eq_ceil_div m.size pp hpp, h0]
      simp [ceil_div]
    · have hids : ids.length = 0 := by omega
      rw [List.eq_nil_of_length_eq_zero hids]
      simp
  · intro h12 h5 h3'
    subst h5
    subst h3'
    constructor
    · rw [filterMap_length_of_isSome _ _ hwin, List.length_take,
          List.length_drop, hlen, h12]
      decide
    · rw [h12]

/-- Concrete instance of `c7_pagination_totals`: twelve tasks, page 3 at
five per page. -/
theorem c7_pagination_totals_witness :
    ∃ r, get_resources
        (⟨[(0, ⟨"x", false, "1"⟩), (1, ⟨"x", false, "1"⟩), (2, ⟨"x", false, "1"⟩),
           (3, ⟨"x", false, "1"⟩), (4, ⟨"x", false, "1"⟩), (5, ⟨"x", false, "1"⟩),
           (6, ⟨"x", false, "1"⟩), (7, ⟨"x", false, "1"⟩), (8, ⟨"x", false, "1"⟩),
           (9, ⟨"x", false, "1"⟩), (10, ⟨"x", false, "1"⟩), (11, ⟨"x", false, "1"⟩)]⟩
          : HMap Task)
        [0, 1, 2, 3, 4, 5, 6, 7, 8, 9, 10, 11] (some 3) (some 5) = some r
      ∧ r.total_entries
          = (⟨[(0, ⟨"x", false, "1"⟩), (1, ⟨"x", false, "1"⟩), (2, ⟨"x", false, "1"⟩),
               (3, ⟨"x", false, "1"⟩), (4, ⟨"x", false, "1"⟩), (5, ⟨"x", false, "1"⟩),
               (6, ⟨"x", false, "1"⟩), (7, ⟨"x", false, "1"⟩), (8, ⟨"x", false, "1"⟩),
               (9, ⟨"x", false, "1"⟩), (10, ⟨"x", false, "1"⟩), (11, ⟨"x", false, "1"⟩)]⟩
              : HMap Task).size
      ∧ r.total_pages
          = ceil_div
              (⟨[(0, ⟨"x", false, "1"⟩), (1, ⟨"x", false, "1"⟩), (2, ⟨"x", false, "1"⟩),
                 (3, ⟨"x", false, "1"⟩), (4, ⟨"x", false, "1"⟩), (5, ⟨"x", false, "1"⟩),
                 (6, ⟨"x", false, "1"⟩), (7, ⟨"x", false, "1"⟩), (8, ⟨"x", false, "1"⟩),
                 (9, ⟨"x", false, "1"⟩), (10, ⟨"x", false, "1"⟩), (11, ⟨"x", false, "1"⟩)]⟩
                : HMap Task).size 5
      ∧ r.entries.length ≤ 5
      ∧ (ceil_div
            (⟨[(0, ⟨"x", false, "1"⟩), (1, ⟨"x", false, "1"⟩), (2, ⟨"x", false, "1"⟩),
               (3, ⟨"x", false, "1"⟩), (4, ⟨"x", false, "1"⟩), (5, ⟨"x", false, "1"⟩),
               (6, ⟨"x", false, "1"⟩), (7, ⟨"x", false, "1"⟩), (8, ⟨"x", false, "1"⟩),
               (9, ⟨"x", false, "1"⟩), (10, ⟨"x", false, "1"⟩), (11, ⟨"x", false, "1"⟩)]⟩
              : HMap Task).size 5 < 3 → r.entries = [])
      ∧ ((⟨[(0, ⟨"x", false, "1"⟩), (1, ⟨"x", false, "1"⟩), (2, ⟨"x", false, "1"⟩),
            (3, ⟨"x", false, "1"⟩), (4, ⟨"x", false, "1"⟩), (5, ⟨"x", false, "1"⟩),
            (6, ⟨"x", false, "1"⟩), (7, ⟨"x", false, "1"⟩), (8, ⟨"x", false, "1"⟩),
            (9, ⟨"x", false, "1"⟩), (10, ⟨"x", false, "1"⟩), (11, ⟨"x", false, "1"⟩)]⟩
           : HMap Task).size = 0 → r.total_pages = 0 ∧ r.entries = [])
      ∧ ((⟨[(0, ⟨"x", false, "1"⟩), (1, ⟨"x", false, "1"⟩), (2, ⟨"x", false, "1"⟩),
            (3, ⟨"x", false, "1"⟩), (4, ⟨"x", false, "1"⟩), (5, ⟨"x", false, "1"⟩),
            (6, ⟨"x", false, "1"⟩), (7, ⟨"x", false, "1"⟩), (8, ⟨"x", false, "1"⟩),
            (9, ⟨"x", false, "1"⟩), (10, ⟨"x", false, "1"⟩), (11, ⟨"x", false, "1"⟩)]⟩
           : HMap Task).size = 12 → 5 = 5 → 3 = 3 →
          r.entries.length = 2 ∧ r.total_pages = 3) :=
  c7_pagination_totals _ _ 3 5 (by decide) (by decide) (by decide)

/-- C8: main.rs line 256 deletes each originally supplied id with
`.unwrap()`, so a deletion failure PANICS the merge instead of being
best-effort: with store `\x7b0 ↦ task\x7d` and supplied ids `[0, 0]` the
second removal reports `Not found` (second conjunct shows the failing
removal) and the merge aborts with no response (`none`), contradicting
the claim that the merge still completes.  The third conjunct confirms
the reading phase does silently skip missing ids: dropping the ids whose
lookup fails leaves the merged task unchanged. -/
theorem c8_merge_deletion_failure_panics :
    merge_tasks (fun s => s) (⟨[(0, ⟨"a", false, "1"⟩)]⟩ : HMap Task) [0, 0]
        "/task_merger" = none
    ∧ rm_resource (⟨[]⟩ : HMap Task) 0 = Except.error "Not found"
    ∧ (∀ (tasks : HMap Task) (ids : List Nat),
        merge_new_task tasks ids
          = merge_new_task tasks
              (ids.filter (fun id => (tasks.find? id).isSome))) := by
  refine ⟨rfl, rfl, ?_⟩
  intro tasks ids
  simp only [merge_new_task]
  rw [← filterMap_eq_filterMap_filter (fun id => tasks.find? id) ids]

/-- C9 (amended): PATCH on an id with no existing task fails with
`400 Bad Request` and body `No such resource` (main.rs line 325), NOT
with the NotFound (404) outcome used by read/delete; the store is
unchanged; as a response it is distinct from the two etag precondition
failures (428/412) and from the nothing-to-update response, though the
latter shares the 400 status and differs only in body. -/
theorem c9_patch_missing_is_bad_request (hash : String → String)
    (m : HMap Task) (id : Nat) (json : Json) (ifMatch : Option String)
    (h : m.find? id = none) :
    patch_task hash m id json ifMatch
      = (⟨400, none, none, "No such resource"⟩, m)
    ∧ (⟨400, none, none, "No such resource"⟩ : HttpResp)
        ≠ ⟨428, none, none, "ETag is missing!"⟩
    ∧ (⟨400, none, none, "No such resource"⟩ : HttpResp)
        ≠ ⟨412, none, none, "ETag does not match!"⟩
    ∧ (⟨400, none, none, "No such resource"⟩ : HttpResp)
        ≠ ⟨400, none, none, "Nothing to update"⟩ := by
  refine ⟨?_, by decide, by decide, by decide⟩
  simp [patch_task, h]

/-- Concrete instance of `c9_patch_missing_is_bad_request`. -/
theorem c9_patch_missing_is_bad_request_witness :
    patch_task (fun s => s) (⟨[]⟩ : HMap Task) 3 Json.null none
      = (⟨400, none, none, "No such resource"⟩, (⟨[]⟩ : HMap Task))
    ∧ (⟨400, none, none, "No such resource"⟩ : HttpResp)
        ≠ ⟨428, none, none, "ETag is missing!"⟩
    ∧ (⟨400, none, none, "No such resource"⟩ : HttpResp)
        ≠ ⟨412, none, none, "ETag does not match!"⟩
    ∧ (⟨400, none, none, "No such resource"⟩ : HttpResp)
        ≠ ⟨400, none, none, "Nothing to update"⟩ :=
  c9_patch_missing_is_bad_request (fun s => s) ⟨[]⟩ 3 Json.null none rfl

/-- C9 counterexample: PATCH of a missing id answers status 400, not the
404 NotFound outcome the claim names (shown alongside on `get_by_id`,
whose missing-id response IS 404 `Not found`). -/
theorem c9_counterexample :
    (patch_task (fun s => s) (⟨[]⟩ : HMap Task) 0
        (Json.obj [("done", Json.bool true)]) none).1.status = 400
    ∧ (patch_task (fun s => s) (⟨[]⟩ : HMap Task) 0
        (Json.obj [("done", Json.bool true)]) none).1.status ≠ 404
    ∧ get_by_id (⟨[]⟩ : HMap Task) 0 = ⟨404, none, none, "Not found"⟩ :=
  ⟨rfl, by decide, rfl⟩

/-- C10: `add_resource` computes the new id as the CURRENT SIZE of the
map and reports success unconditionally, with no occupancy check (first
two conjuncts: the generic behavior, and that the insert lands on key
`m.size`).  The remaining conjuncts replay create → create → delete 0 →
create: after the deletion the live key set is `\x7b1\x7d` of size 1, so
the next create picks id 1 and silently replaces the live task `t1` with
`t2` while still reporting success with location `/tasks/1`. -/
theorem c10_create_overwrites_after_delete :
    (∀ (hash : String → String) (m : HMap Task) (p : Task) (uri : String),
        add_resource hash m p uri
          = .ok (uri ++ "/" ++ toString m.size,
                 m.insert m.size (Etagged.set_etag p (hash (Serialize.to_string p)))))
    ∧ (∀ (hash : String → String) (m : HMap Task) (p : Task),
        (m.insert m.size (Etagged.set_etag p (hash (Serialize.to_string p)))).find?
            m.size
          = some (Etagged.set_etag p (hash (Serialize.to_string p))))
    ∧ rm_resource
        (⟨[(1, ⟨"t1", false, serTask ⟨"t1", false, ""⟩⟩),
           (0, ⟨"t0", false, serTask ⟨"t0", false, ""⟩⟩)]⟩ : HMap Task) 0
      = .ok ⟨[(1, ⟨"t1", false, serTask ⟨"t1", false, ""⟩⟩)]⟩
    ∧ add_resource (fun s => s)
        (⟨[(1, ⟨"t1", false, serTask ⟨"t1", false, ""⟩⟩)]⟩ : HMap Task)
        ⟨"t2", false, ""⟩ "/tasks"
      = .ok ("/tasks/1", ⟨[(1, ⟨"t2", false, serTask ⟨"t2", false, ""⟩⟩)]⟩)
    ∧ (⟨"t1", false, serTask ⟨"t1", false, ""⟩⟩ : Task)
        ≠ ⟨"t2", false, serTask ⟨"t2", false, ""⟩⟩ := by
  refine ⟨fun hash m p uri => rfl, ?_, rfl, rfl, by decide⟩
  intro hash m p
  exact HMap.find?_insert_self m m.size _

end RestJournal
